import Mathlib

/-!
Shallow embedding of the span-extraction pipeline of `src/pdf_loader.py`
(classes `SpanInfo` and `PDFTextExtractor`, plus the module-level
convenience functions).

Modelling conventions:
* Python `float` values (font sizes, bounding-box coordinates, the 0.3
  ratio threshold) are embedded as rationals `ℚ`.
* Python `int` values (page numbers, style flags, packed colors) are
  embedded as `Int`; loop counters produced by `enumerate(doc, 1)` are `Nat`.
* Python exceptions are embedded as an explicit error type `PdfErr`;
  a function that may raise returns `Except PdfErr _`, and a caught
  exception that is merely logged (`logger.warning`) is surfaced as an
  `Option PdfErr` / `List (Nat × PdfErr)` warning channel.
* The opaque PyMuPDF structures (`fitz.open`, `page.get_text("dict")`)
  are embedded as inductive data (`DocData`, `PageData`, `RawBlock`,
  `RawLine`, `RawRun`) covering both well-formed data and the failure
  points the source code has to survive: a document that fails to open,
  a page whose structural read raises, and a run whose field access raises.
-/

/-! ### Errors (Python exceptions raised / caught by `pdf_loader.py`) -/

/-- The exceptions that appear in `src/pdf_loader.py`:
`valueError` is a `ValueError` from `SpanInfo.__post_init__` (the spec's
`InvalidSpan`); `pageError` is an exception raised by the opaque page
structure during the walk in `_extract_page_spans`; `fileNotFound` and
`runtimeError` are the two exceptions `extract_text_spans` re-raises
(the spec's `NotFound` and `CorruptDocument`). -/
inductive PdfErr where
  | valueError (msg : String)
  | pageError
  | fileNotFound (msg : String)
  | runtimeError (msg : String)
deriving DecidableEq, Repr

instance {ε α : Type} [DecidableEq ε] [DecidableEq α] : DecidableEq (Except ε α) := fun a b =>
  match a, b with
  | .ok x, .ok y =>
    decidable_of_iff (x = y) ⟨fun h => by rw [h], fun h => by injection h⟩
  | .error x, .error y =>
    decidable_of_iff (x = y) ⟨fun h => by rw [h], fun h => by injection h⟩
  | .ok _, .error _ => isFalse (fun h => Except.noConfusion h)
  | .error _, .ok _ => isFalse (fun h => Except.noConfusion h)

/-! ### Data model: `SpanInfo` (src/pdf_loader.py lines 10-29) -/

/-- The frozen dataclass `SpanInfo`.  Its `bbox` is stored as the four
coordinates `(x1, y1, x2, y2)`: `__post_init__` rejects any tuple whose
length is not 4, so every constructed Python `SpanInfo` carries exactly
four coordinates. -/
structure SpanInfo where
  text : String
  bbox : ℚ × ℚ × ℚ × ℚ
  size : ℚ
  page : Int
  font : String := ""
  is_bold : Bool := false
  is_italic : Bool := false
  color : String := ""
deriving DecidableEq, Repr

/-- The four stored coordinates of a `SpanInfo.bbox`, as a list. -/
def bboxList (b : ℚ × ℚ × ℚ × ℚ) : List ℚ :=
  [b.1, b.2.1, b.2.2.1, b.2.2.2]

/-- `SpanInfo(...)` including the `__post_init__` validation
(src/pdf_loader.py lines 22-29): constructing a `SpanInfo` raises
`ValueError` when `page < 1`, when `size <= 0`, or when the bbox tuple
does not have exactly 4 coordinates, in that order; otherwise the fields
are stored unchanged. -/
def mkSpanInfo (text : String) (bbox : List ℚ) (size : ℚ) (page : Int)
    (font : String) (is_bold : Bool) (is_italic : Bool) (color : String) :
    Except PdfErr SpanInfo :=
  if page < 1 then .error (.valueError "Page number must be positive")
  else if size ≤ 0 then .error (.valueError "Font size must be positive")
  else
    match bbox with
    | [x1, y1, x2, y2] =>
        .ok { text := text, bbox := (x1, y1, x2, y2), size := size, page := page,
              font := font, is_bold := is_bold, is_italic := is_italic, color := color }
    | _ => .error (.valueError "BBox must have 4 coordinates")

/-! ### Style classification: `_parse_font_info` (lines 119-132) -/

/-- The dict returned by `_parse_font_info`. -/
structure FontInfo where
  font_name : String
  is_bold : Bool
  is_italic : Bool
  flags : Int
deriving DecidableEq, Repr

/-- Whether `pat` occurs as a contiguous sublist of the second list. -/
def listIsInfixOf (pat : List Char) : List Char → Bool
  | [] => pat.isEmpty
  | a :: as => pat.isPrefixOf (a :: as) || listIsInfixOf pat as

/-- Python's substring test `pat in s` on strings. -/
def containsSub (s pat : String) : Bool :=
  listIsInfixOf pat.data s.data

/-- Python's `str.lower()`: lowercase every character. -/
def pyLower (s : String) : String :=
  String.mk (s.data.map Char.toLower)

/-- Python's `str.strip()`: drop leading and trailing whitespace. -/
def pyStrip (s : String) : String :=
  String.mk (((s.data.dropWhile Char.isWhitespace).reverse.dropWhile
    Char.isWhitespace).reverse)

/-- `PDFTextExtractor._parse_font_info`: `is_bold = bool(flags & 16) or
"bold" in font_name.lower()`, `is_italic = bool(flags & 2) or
"italic" in font_name.lower()`.  The caller supplies the values of
`span.get("font", "")` and `span.get("flags", 0)`. -/
def parse_font_info (font_name : String) (flags : Int) : FontInfo :=
  { font_name := font_name
    is_bold := decide (Int.land flags 16 ≠ 0) || containsSub (pyLower font_name) "bold"
    is_italic := decide (Int.land flags 2 ≠ 0) || containsSub (pyLower font_name) "italic"
    flags := flags }

/-! ### Color decoding: `_parse_color` (lines 134-144) -/

/-- Fuel-driven worker for `natHexDigits`; the fuel only bounds the
recursion depth and is irrelevant as long as it exceeds the value. -/
def natHexDigitsAux : Nat → Nat → List Char
  | 0, _ => []
  | fuel + 1, n =>
    if n < 16 then [Nat.digitChar n]
    else natHexDigitsAux fuel (n / 16) ++ [Nat.digitChar (n % 16)]

/-- Lowercase hexadecimal digits of `n`, most significant first
(`['0']` for `0`), as produced by Python's `"x"` format code. -/
def natHexDigits (n : Nat) : List Char :=
  natHexDigitsAux (n + 1) n

/-- Left-pad a digit list with `'0'` up to width `w`. -/
def zeroPad (w : Nat) (ds : List Char) : List Char :=
  List.replicate (w - ds.length) '0' ++ ds

/-- Python's `f"{n:06x}"` for an `int` value `n`: lowercase hexadecimal,
zero-padded to a minimum total width of 6 (the sign of a negative value
counts towards the width and the padding goes after the sign).  The
format never truncates: a value of 2^24 or more keeps all its digits. -/
def pyFormat06x (n : Int) : String :=
  if n < 0 then String.mk ('-' :: zeroPad 5 (natHexDigits n.natAbs))
  else String.mk (zeroPad 6 (natHexDigits n.toNat))

/-- `PDFTextExtractor._parse_color`: `0` maps to `"black"`, any other
integer to `f"#{color:06x}"`.  (The `try`/`except` around the format is
dead for `int` inputs: formatting an `int` with `"06x"` never raises.)
The caller supplies the value of `span.get("color", 0)`. -/
def parse_color (color : Int) : String :=
  if color = 0 then "black" else "#" ++ pyFormat06x color

/-! ### Filtering helpers: `_is_mostly_special_chars` (173-179) and
`_is_valid_bbox` (181-193) -/

/-- `sum(1 for c in text if c.isalnum())`.  Python's Unicode-aware
`str.isalnum` is embedded as the ASCII `Char.isAlphanum`. -/
def alnumCount (text : String) : Nat :=
  text.data.countP Char.isAlphanum

/-- `PDFTextExtractor._is_mostly_special_chars`: text shorter than 3
characters is never "mostly special"; otherwise the text is mostly
special exactly when the alphanumeric fraction is below 0.3. -/
def is_mostly_special_chars (text : String) : Bool :=
  if text.length < 3 then false
  else decide ((alnumCount text : ℚ) / (text.length : ℚ) < 3 / 10)

/-- `PDFTextExtractor._is_valid_bbox`: requires `x2 > x1`, `y2 > y1`,
and every coordinate within `[0, 10000]`. -/
def is_valid_bbox (bbox : ℚ × ℚ × ℚ × ℚ) : Bool :=
  if bbox.2.2.1 ≤ bbox.1 ∨ bbox.2.2.2 ≤ bbox.2.1 then false
  else if (bboxList bbox).any (fun coord => decide (coord < 0) || decide (coord > 10000)) then false
  else true

/-- The keep-condition of the `_filter_spans` loop (lines 146-171): a
span survives when none of the four `continue` guards fires, tested in
source order (size range, minimum length, special-character ratio,
bounding-box sanity). -/
def keepSpan (min_font_size max_font_size : ℚ) (span : SpanInfo) : Bool :=
  if ¬ (min_font_size ≤ span.size ∧ span.size ≤ max_font_size) then false
  else if span.text.length < 2 then false
  else if is_mostly_special_chars span.text then false
  else if ¬ is_valid_bbox span.bbox then false
  else true

/-- `PDFTextExtractor._filter_spans`: the loop appends, in input order,
exactly the spans whose guards all pass, i.e. a list filter. -/
def filter_spans (min_font_size max_font_size : ℚ) (spans : List SpanInfo) : List SpanInfo :=
  spans.filter (keepSpan min_font_size max_font_size)

/-! ### Page structure and the page walk: `_extract_page_spans` (76-117) -/

/-- One raw span dict of `page.get_text("dict")`.  A `valid` run exposes
the six fields the source reads; a `malformed` run is one whose field
access raises (e.g. a missing `"text"` key), aborting the page walk. -/
inductive RawRun where
  | valid (text : String) (bbox : List ℚ) (size : ℚ) (font : String)
      (flags : Int) (color : Int)
  | malformed
deriving DecidableEq, Repr

/-- One line dict: its `"spans"` list. -/
structure RawLine where
  spans : List RawRun
deriving DecidableEq, Repr

/-- One block dict: `lines = none` embeds a block without a `"lines"`
key, which the walk skips (`if "lines" not in block: continue`). -/
structure RawBlock where
  lines : Option (List RawLine)
deriving DecidableEq, Repr

/-- One page as seen by `_extract_page_spans`: either the block list of
`page.get_text("dict")["blocks"]`, or a page whose structural read
raises immediately. -/
inductive PageData where
  | ok (blocks : List RawBlock)
  | unreadable
deriving DecidableEq, Repr

/-- The body of the innermost loop of `_extract_page_spans` for one run:
strip the text and skip the run if nothing remains; otherwise classify
the style, decode the color and construct the `SpanInfo`.  A malformed
run raises, and a `ValueError` from the `SpanInfo` constructor
propagates — there is no per-run handler in the source. -/
def runStep (page_num : Nat) (r : RawRun) : Except PdfErr (Option SpanInfo) :=
  match r with
  | .malformed => .error .pageError
  | .valid text bbox size font flags color =>
    let t := pyStrip text
    if t = "" then .ok none
    else
      let font_info := parse_font_info font flags
      let c := parse_color color
      (mkSpanInfo t bbox size (page_num : Int) font_info.font_name
        font_info.is_bold font_info.is_italic c).map some

/-- The `for span in line["spans"]` loop.  The first component is the
`spans` list accumulated so far; a `some` second component is the
exception that aborted the loop (the spans accumulated before it are
kept, matching the Python `spans` list surviving into the `except`
branch of `_extract_page_spans`). -/
def runsWalk (page_num : Nat) : List RawRun → List SpanInfo × Option PdfErr
  | [] => ([], none)
  | r :: rs =>
    match runStep page_num r with
    | .error e => ([], some e)
    | .ok none => runsWalk page_num rs
    | .ok (some s) => (s :: (runsWalk page_num rs).1, (runsWalk page_num rs).2)

/-- The `for line in block["lines"]` loop, with the same
partial-results-plus-abort convention as `runsWalk`. -/
def linesWalk (page_num : Nat) : List RawLine → List SpanInfo × Option PdfErr
  | [] => ([], none)
  | l :: ls =>
    match (runsWalk page_num l.spans).2 with
    | some e => ((runsWalk page_num l.spans).1, some e)
    | none =>
      ((runsWalk page_num l.spans).1 ++ (linesWalk page_num ls).1,
       (linesWalk page_num ls).2)

/-- The `for block in blocks` loop: blocks without a `"lines"` key are
skipped, everything else is handed to the line walk. -/
def blocksWalk (page_num : Nat) : List RawBlock → List SpanInfo × Option PdfErr
  | [] => ([], none)
  | b :: bs =>
    match b.lines with
    | none => blocksWalk page_num bs
    | some ls =>
      match (linesWalk page_num ls).2 with
      | some e => ((linesWalk page_num ls).1, some e)
      | none =>
        ((linesWalk page_num ls).1 ++ (blocksWalk page_num bs).1,
         (blocksWalk page_num bs).2)

/-- `PDFTextExtractor._extract_page_spans`: the whole walk sits in one
`try`; on any exception the spans accumulated so far are returned and a
warning is logged (surfaced here as the `Option PdfErr` component). -/
def extract_page_spans (page : PageData) (page_num : Nat) :
    List SpanInfo × Option PdfErr :=
  match page with
  | .unreadable => ([], some .pageError)
  | .ok blocks => blocksWalk page_num blocks

/-! ### Document level: `extract_text_spans` (38-74) -/

/-- The outcome of `fitz.open(pdf_path)` for the given path: a page
list on success, `missing` when it raises `FileNotFoundError`, and
`corrupt cause` when it raises any other exception. -/
inductive DocData where
  | pages (ps : List PageData)
  | missing
  | corrupt (cause : String)
deriving DecidableEq, Repr

/-- The `for page_num, page in enumerate(doc, 1)` loop of
`extract_text_spans`: concatenates every page's spans in page order and
collects the page-level warnings (page number and exception) in order.
The per-page `try`/`except` in `extract_text_spans` itself is dead
code: `_extract_page_spans` already catches every exception. -/
def pagesWalk (page_num : Nat) : List PageData → List SpanInfo × List (Nat × PdfErr)
  | [] => ([], [])
  | p :: ps =>
    ((extract_page_spans p page_num).1 ++ (pagesWalk (page_num + 1) ps).1,
     match (extract_page_spans p page_num).2 with
     | some e => (page_num, e) :: (pagesWalk (page_num + 1) ps).2
     | none => (pagesWalk (page_num + 1) ps).2)

/-- `PDFTextExtractor.extract_text_spans`: re-raises
`FileNotFoundError` with a path message, wraps any other open failure
into a `RuntimeError` carrying the cause, and otherwise walks all pages,
filters the aggregate and returns it (paired here with the logged
page-level warnings). -/
def extract_text_spans (min_font_size max_font_size : ℚ) (pdf_path : String)
    (doc : DocData) : Except PdfErr (List SpanInfo × List (Nat × PdfErr)) :=
  match doc with
  | .missing => .error (.fileNotFound ("PDF file not found: " ++ pdf_path))
  | .corrupt cause =>
      .error (.runtimeError ("Failed to extract text from " ++ pdf_path ++ ": " ++ cause))
  | .pages ps =>
      let walked := pagesWalk 1 ps
      .ok (filter_spans min_font_size max_font_size walked.1, walked.2)

/-- Module-level `extract_text_spans`: default settings 6.0 / 72.0. -/
def extract_text_spans_default (pdf_path : String) (doc : DocData) :
    Except PdfErr (List SpanInfo × List (Nat × PdfErr)) :=
  extract_text_spans 6 72 pdf_path doc

/-- Module-level `extract_text_spans_enhanced`: custom, unvalidated
`min_font_size` / `max_font_size` handed to the constructor. -/
def extract_text_spans_enhanced (pdf_path : String) (min_font_size max_font_size : ℚ)
    (doc : DocData) : Except PdfErr (List SpanInfo × List (Nat × PdfErr)) :=
  extract_text_spans min_font_size max_font_size pdf_path doc

/-! ### Specification-side vocabulary -/

/-- The sixteen lowercase hexadecimal digit characters. -/
def isLowerHexDigit (ch : Char) : Bool :=
  decide (ch ∈ "0123456789abcdef".data)

/-- The numeric value of a lowercase hexadecimal digit character
(its position in `"0123456789abcdef"`). -/
def hexCharVal (ch : Char) : Nat :=
  List.indexOf ch "0123456789abcdef".data

/-- The number denoted by a big-endian list of hexadecimal digits. -/
def hexValue (ds : List Char) : Nat :=
  ds.foldl (fun a ch => 16 * a + hexCharVal ch) 0

/-- Modelled from the claim under test: `"#"` followed by exactly six
lowercase hexadecimal digits encoding the low 24 bits of the integer.
This is the comparator for the color-decoding claim, not the source
translation (`parse_color` is the source translation). -/
def hexLow24 (c : Int) : String :=
  "#" ++ String.mk (zeroPad 6 (natHexDigits (c % (2 ^ 24)).toNat))

/-- The bounding-box sanity condition exactly as the specification words
it: `x2 > x1`, `y2 > y1`, and all four coordinates within `[0, 10000]`. -/
def specValidBbox (b : ℚ × ℚ × ℚ × ℚ) : Prop :=
  b.1 < b.2.2.1 ∧ b.2.1 < b.2.2.2 ∧ ∀ c ∈ bboxList b, 0 ≤ c ∧ c ≤ 10000

instance (b : ℚ × ℚ × ℚ × ℚ) : Decidable (specValidBbox b) := by
  unfold specValidBbox; infer_instance

/-! ### Concrete instances used by witnesses and counterexamples -/

/-- A record whose font size 5.9 sits just below the default minimum. -/
def rec59 : SpanInfo :=
  { text := "Hi", bbox := (0, 0, 100, 20), size := 59 / 10, page := 1 }

/-- A record whose font size 6.0 sits exactly on the default minimum. -/
def rec60 : SpanInfo :=
  { text := "Hi", bbox := (0, 0, 100, 20), size := 6, page := 1 }

/-- A record whose stored text is two spaces: its untrimmed length is 2
but its trimmed length is 0. -/
def c3rec : SpanInfo :=
  { text := "  ", bbox := (0, 0, 1, 1), size := 10, page := 1 }

/-- A valid run preceding the failing run on the counterexample page. -/
def c1run1 : RawRun := .valid "Alpha" [0, 0, 50, 10] 12 "Helvetica" 0 0

/-- A run whose size 0 makes `SpanInfo` construction raise `ValueError`. -/
def c1run2 : RawRun := .valid "Beta" [0, 12, 50, 22] 0 "Helvetica" 0 0

/-- A valid sibling run occurring after the failing run. -/
def c1run3 : RawRun := .valid "Gamma" [0, 24, 50, 34] 12 "Helvetica" 0 0

/-- One page with a single line holding a valid run, an invalid run and
another valid run, in that order. -/
def c1page : PageData :=
  .ok [{ lines := some [{ spans := [c1run1, c1run2, c1run3] }] }]

/-- A well-formed first page with one bold heading run. -/
def w4page1 : PageData :=
  .ok [{ lines := some [{ spans := [.valid "Intro" [10, 10, 100, 25] 14 "Helvetica" 16 0] }] }]

/-- A page that throws partway through its structural walk: one good run
followed by a malformed run. -/
def w4page2 : PageData :=
  .ok [{ lines := some [{ spans := [.valid "Before" [10, 10, 100, 25] 12 "Times" 0 0,
                                    .malformed] }] }]

/-- A well-formed third page. -/
def w4page3 : PageData :=
  .ok [{ lines := some [{ spans := [.valid "After" [10, 30, 100, 45] 12 "Times" 0 255] }] }]

/-- A record with an ordinary size, used with an inverted size range. -/
def w10span : SpanInfo :=
  { text := "Heading", bbox := (0, 0, 100, 20), size := 12, page := 1 }

/-- A one-line page used with an inverted size range. -/
def w10page : PageData :=
  .ok [{ lines := some [{ spans := [.valid "Heading" [0, 0, 100, 20] 12 "Helvetica" 0 0] }] }]

/-! ### Helper lemmas: hexadecimal digit strings -/

theorem natHexDigitsAux_fuel (n : Nat) : ∀ f₁ f₂ : Nat, n < f₁ → n < f₂ →
    natHexDigitsAux f₁ n = natHexDigitsAux f₂ n := by
  induction n using Nat.strong_induction_on with
  | _ n ih =>
    intro f₁ f₂ h₁ h₂
    match f₁, f₂ with
    | g₁ + 1, g₂ + 1 =>
      simp only [natHexDigitsAux]
      by_cases h16 : n < 16
      · simp [h16]
      · simp only [h16, if_false]
        have hlt : n / 16 < n := Nat.div_lt_self (by omega) (by omega)
        rw [ih (n / 16) hlt g₁ g₂ (by omega) (by omega)]

theorem natHexDigits_spec (n : Nat) :
    natHexDigits n =
      if n < 16 then [Nat.digitChar n]
      else natHexDigits (n / 16) ++ [Nat.digitChar (n % 16)] := by
  by_cases h16 : n < 16
  · simp [natHexDigits, natHexDigitsAux, h16]
  · have hlt : n / 16 < n := Nat.div_lt_self (by omega) (by omega)
    have hstep : natHexDigits n = natHexDigitsAux n (n / 16) ++ [Nat.digitChar (n % 16)] := by
      simp [natHexDigits, natHexDigitsAux, h16]
    rw [hstep, natHexDigitsAux_fuel (n / 16) n (n / 16 + 1) hlt (by omega), if_neg h16]
    rfl

theorem hexCharVal_digitChar : ∀ v : Nat, v < 16 →
    hexCharVal (Nat.digitChar v) = v ∧ isLowerHexDigit (Nat.digitChar v) = true := by
  decide

theorem natHexDigits_all_lower (n : Nat) :
    (natHexDigits n).all isLowerHexDigit = true := by
  induction n using Nat.strong_induction_on with
  | _ n ih =>
    rw [natHexDigits_spec]
    by_cases h16 : n < 16
    · simp [h16, (hexCharVal_digitChar n h16).2]
    · have hlt : n / 16 < n := Nat.div_lt_self (by omega) (by omega)
      simp [h16, List.all_append, ih (n / 16) hlt,
        (hexCharVal_digitChar (n % 16) (Nat.mod_lt n (by omega))).2]

theorem hexValue_natHexDigits (n : Nat) : hexValue (natHexDigits n) = n := by
  induction n using Nat.strong_induction_on with
  | _ n ih =>
    rw [natHexDigits_spec]
    by_cases h16 : n < 16
    · simp [h16, hexValue, (hexCharVal_digitChar n h16).1]
    · have hlt : n / 16 < n := Nat.div_lt_self (by omega) (by omega)
      simp only [h16, if_false, hexValue, List.foldl_append]
      have hmod := (hexCharVal_digitChar (n % 16) (Nat.mod_lt n (by omega))).1
      simp only [List.foldl]
      rw [show List.foldl (fun a ch => 16 * a + hexCharVal ch) 0 (natHexDigits (n / 16)) =
            hexValue (natHexDigits (n / 16)) from rfl, ih (n / 16) hlt, hmod]
      omega

theorem natHexDigits_length_le (n : Nat) : ∀ k : Nat, 1 ≤ k → n < 16 ^ k →
    (natHexDigits n).length ≤ k := by
  induction n using Nat.strong_induction_on with
  | _ n ih =>
    intro k hk hn
    rw [natHexDigits_spec]
    by_cases h16 : n < 16
    · simp [h16, hk]
    · match k, hk with
      | k' + 1, _ =>
        have hk' : 1 ≤ k' := by
          by_contra hc
          have : k' = 0 := by omega
          subst this; simp at hn; omega
        have hlt : n / 16 < n := Nat.div_lt_self (by omega) (by omega)
        have hdiv : n / 16 < 16 ^ k' := by
          rw [Nat.div_lt_iff_lt_mul (by omega)]
          calc n < 16 ^ (k' + 1) := hn
            _ = 16 ^ k' * 16 := by ring
        have := ih (n / 16) hlt k' hk' hdiv
        simp only [h16, if_false, List.length_append, List.length_cons, List.length_nil]
        omega

theorem foldl_hex_replicate (m : Nat) :
    List.foldl (fun a ch => 16 * a + hexCharVal ch) 0 (List.replicate m '0') = 0 := by
  induction m with
  | zero => rfl
  | succ m ihm => simpa [List.replicate_succ, show hexCharVal '0' = 0 from rfl] using ihm

theorem hexValue_zeroPad (w : Nat) (ds : List Char) :
    hexValue (zeroPad w ds) = hexValue ds := by
  simp only [hexValue, zeroPad, List.foldl_append, foldl_hex_replicate]

theorem zeroPad_all_lower (w : Nat) (ds : List Char)
    (h : ds.all isLowerHexDigit = true) : (zeroPad w ds).all isLowerHexDigit = true := by
  have hrep : (List.replicate (w - ds.length) '0').all isLowerHexDigit = true := by
    rw [List.all_eq_true]
    intro x hx
    rw [List.eq_of_mem_replicate hx]
    decide
  simp [zeroPad, List.all_append, hrep, h]

theorem zeroPad_length (w : Nat) (ds : List Char) (h : ds.length ≤ w) :
    (zeroPad w ds).length = w := by
  simp [zeroPad]
  omega


theorem runsWalk_append_ok (pn : Nat) (l₁ l₂ : List RawRun)
    (h : (runsWalk pn l₁).2 = none) :
    runsWalk pn (l₁ ++ l₂) = ((runsWalk pn l₁).1 ++ (runsWalk pn l₂).1, (runsWalk pn l₂).2) := by
  induction l₁ with
  | nil => simp [runsWalk]
  | cons r rs ih =>
    match hs : runStep pn r with
    | .error e => simp [runsWalk, hs] at h
    | .ok none =>
      simp only [List.cons_append, List.append_eq, runsWalk, hs] at h ⊢
      exact ih h
    | .ok (some s) =>
      simp only [List.cons_append, List.append_eq, runsWalk, hs] at h ⊢
      rw [ih h]

theorem linesWalk_append_ok (pn : Nat) (l₁ l₂ : List RawLine)
    (h : (linesWalk pn l₁).2 = none) :
    linesWalk pn (l₁ ++ l₂) = ((linesWalk pn l₁).1 ++ (linesWalk pn l₂).1, (linesWalk pn l₂).2) := by
  induction l₁ with
  | nil => simp [linesWalk]
  | cons l ls ih =>
    match hs : (runsWalk pn l.spans).2 with
    | some e => simp [linesWalk, hs] at h
    | none =>
      simp only [List.cons_append, List.append_eq, linesWalk, hs] at h ⊢
      rw [ih h]
      simp

theorem blocksWalk_append_ok (pn : Nat) (l₁ l₂ : List RawBlock)
    (h : (blocksWalk pn l₁).2 = none) :
    blocksWalk pn (l₁ ++ l₂) =
      ((blocksWalk pn l₁).1 ++ (blocksWalk pn l₂).1, (blocksWalk pn l₂).2) := by
  induction l₁ with
  | nil => simp [blocksWalk]
  | cons b bs ih =>
    match hb : b.lines with
    | none =>
      simp only [List.cons_append, List.append_eq, blocksWalk, hb] at h ⊢
      exact ih h
    | some ls =>
      match hs : (linesWalk pn ls).2 with
      | some e => simp [blocksWalk, hb, hs] at h
      | none =>
        simp only [List.cons_append, List.append_eq, blocksWalk, hb, hs] at h ⊢
        rw [ih h]
        simp

theorem pagesWalk_append (n : Nat) (l₁ l₂ : List PageData) :
    pagesWalk n (l₁ ++ l₂) =
      ((pagesWalk n l₁).1 ++ (pagesWalk (n + l₁.length) l₂).1,
       (pagesWalk n l₁).2 ++ (pagesWalk (n + l₁.length) l₂).2) := by
  induction l₁ generalizing n with
  | nil => simp [pagesWalk]
  | cons p ps ih =>
    have harith : n + (ps.length + 1) = n + 1 + ps.length := by omega
    cases he : (extract_page_spans p n).2 with
    | none =>
      simp only [List.cons_append, List.append_eq, pagesWalk, he, List.length_cons, harith,
        ih (n + 1), List.append_assoc]
    | some e =>
      simp only [List.cons_append, List.append_eq, pagesWalk, he, List.length_cons, harith,
        ih (n + 1), List.append_assoc]

/-! ### Helper lemmas: substring test and the ratio test -/

theorem listIsInfixOf_iff (pat : List Char) (l : List Char) :
    listIsInfixOf pat l = true ↔ pat <:+: l := by
  induction l with
  | nil =>
    simp only [listIsInfixOf, List.isEmpty_iff, List.infix_nil]
  | cons a as ih =>
    simp only [listIsInfixOf, Bool.or_eq_true, List.isPrefixOf_iff_prefix, ih,
      List.infix_cons_iff]

theorem containsSub_iff (s pat : String) :
    containsSub s pat = true ↔ pat.data <:+: s.data :=
  listIsInfixOf_iff pat.data s.data

theorem ratio_lt_three_tenths (a len : Nat) (h : 0 < len) :
    ((a : ℚ) / (len : ℚ) < 3 / 10) ↔ 10 * a < 3 * len := by
  rw [div_lt_div_iff₀ (by exact_mod_cast h) (by norm_num : (0 : ℚ) < 10)]
  constructor
  · intro hx
    by_contra hc
    push_neg at hc
    have hq : ((3 * len : ℕ) : ℚ) ≤ ((10 * a : ℕ) : ℚ) := by exact_mod_cast hc
    push_cast at hq
    linarith
  · intro hx
    have hq : ((10 * a : ℕ) : ℚ) < ((3 * len : ℕ) : ℚ) := by exact_mod_cast hx
    push_cast at hq
    linarith

/-- The ratio test restated over the integers, which keeps every
concrete instance computable by the kernel. -/
theorem is_mostly_special_chars_eq (text : String) :
    is_mostly_special_chars text =
      (decide (3 ≤ text.length) && decide (10 * alnumCount text < 3 * text.length)) := by
  by_cases h : text.length < 3
  · simp [is_mostly_special_chars, h]
  · have hlen : 0 < text.length := by omega
    simp only [is_mostly_special_chars, if_neg h]
    apply Bool.coe_iff_coe.mp
    simp only [decide_eq_true_eq, Bool.and_eq_true]
    rw [ratio_lt_three_tenths _ _ hlen]
    constructor
    · intro hx
      exact ⟨by omega, hx⟩
    · intro hx
      exact hx.2

/-! ### Helper lemmas: bit tests and the filter predicate -/

theorem int_land_two_pow_ne_zero (g : Int) (i : Nat) :
    (Int.land g ((2 ^ i : Nat) : Int) ≠ 0) ↔ g.testBit i = true := by
  cases g with
  | ofNat m =>
    show ((m &&& 2 ^ i : Nat) : Int) ≠ 0 ↔ Nat.testBit m i = true
    rw [Nat.and_two_pow]
    cases hb : m.testBit i
    · rw [Bool.toNat_false, Nat.zero_mul]
      simp
    · rw [Bool.toNat_true, Nat.one_mul]
      have hpow : (2 : ℤ) ^ i ≠ 0 := pow_ne_zero i (by norm_num)
      push_cast
      simp [hpow]
  | negSucc m =>
    show ((Nat.ldiff (2 ^ i) m : Nat) : Int) ≠ 0 ↔ (!(Nat.testBit m i)) = true
    cases hb : m.testBit i
    · have hne : Nat.ldiff (2 ^ i) m ≠ 0 := by
        intro hz
        have hbit := Nat.testBit_ldiff (2 ^ i) m i
        rw [hz, Nat.zero_testBit, Nat.testBit_two_pow_self, hb] at hbit
        simp at hbit
      simp [hne]
    · have hz : Nat.ldiff (2 ^ i) m = 0 := by
        apply Nat.eq_of_testBit_eq
        intro j
        rw [Nat.testBit_ldiff, Nat.zero_testBit]
        by_cases hij : j = i
        · subst hij; simp [hb]
        · simp [Nat.testBit_two_pow_of_ne (fun hc => hij hc.symm)]
      simp [hz]

theorem is_valid_bbox_iff (b : ℚ × ℚ × ℚ × ℚ) :
    is_valid_bbox b = true ↔ specValidBbox b := by
  obtain ⟨x1, y1, x2, y2⟩ := b
  simp only [is_valid_bbox, specValidBbox, bboxList]
  split_ifs with h1 h2
  · simp only [false_iff]
    rintro ⟨ha, hb, -⟩
    rcases h1 with h | h
    · exact absurd ha (not_lt.mpr h)
    · exact absurd hb (not_lt.mpr h)
  · simp only [false_iff]
    rw [List.any_eq_true] at h2
    rintro ⟨-, -, hall⟩
    obtain ⟨c, hc, hcond⟩ := h2
    rcases hall c hc with ⟨hc0, hc1⟩
    simp only [Bool.or_eq_true, decide_eq_true_eq] at hcond
    rcases hcond with h | h
    · exact absurd hc0 (not_le.mpr h)
    · exact absurd hc1 (not_le.mpr h)
  · simp only [true_iff]
    push_neg at h1
    refine ⟨h1.1, h1.2, ?_⟩
    intro c hc
    rw [List.any_eq_true] at h2
    push_neg at h2
    have hcc := h2 c hc
    simp only [ne_eq, Bool.or_eq_true, decide_eq_true_eq, not_or] at hcc
    exact ⟨not_lt.mp hcc.1, not_lt.mp hcc.2⟩

theorem keepSpan_iff (minf maxf : ℚ) (r : SpanInfo) :
    keepSpan minf maxf r = true ↔
      (minf ≤ r.size ∧ r.size ≤ maxf ∧ 2 ≤ r.text.length ∧
        is_mostly_special_chars r.text = false ∧ specValidBbox r.bbox) := by
  simp only [keepSpan]
  split_ifs with h1 h2 h3 h4
  · simp only [false_iff]
    rintro ⟨-, -, hlen, -, -⟩
    omega
  · simp only [false_iff]
    rintro ⟨-, -, -, hm, -⟩
    rw [h3] at hm
    exact Bool.noConfusion hm
  · simp only [true_iff]
    exact ⟨h1.1, h1.2, by omega, Bool.eq_false_iff.mpr h3, (is_valid_bbox_iff r.bbox).mp h4⟩
  · simp only [false_iff]
    rintro ⟨-, -, -, -, hbb⟩
    exact h4 ((is_valid_bbox_iff r.bbox).mpr hbb)
  · simp only [false_iff]
    rintro ⟨ha, hb, -, -, -⟩
    exact h1 ⟨ha, hb⟩

/-! ### Claim C9 -/

/-- C9: `_filter_spans` is idempotent — for every record sequence and
every configuration of `min_font_size` and `max_font_size`, filtering an
already-filtered sequence yields the same sequence. -/
theorem c9_filter_idempotent (min_font_size max_font_size : ℚ) (spans : List SpanInfo) :
    filter_spans min_font_size max_font_size (filter_spans min_font_size max_font_size spans) =
      filter_spans min_font_size max_font_size spans := by
  simp [filter_spans, List.filter_filter]

/-! ### Claim C7 -/

/-- C7: in `_is_mostly_special_chars`, text of length below 3 is exempt
(so the length-2 text `"!!"` is never rejected by this test), while for
text of length at least 3 the record is rejected exactly when the
alphanumeric fraction is below 0.3; `"a!!!!!!!"` (fraction 1/8) is
rejected and a fraction of exactly 0.3 (e.g. `"abc!!!!!!!"`) is
accepted. -/
theorem c7_special_char_ratio (text : String) :
    (text.length < 3 → is_mostly_special_chars text = false) ∧
    (3 ≤ text.length →
      (is_mostly_special_chars text = true ↔
        (alnumCount text : ℚ) / (text.length : ℚ) < 3 / 10)) ∧
    is_mostly_special_chars "!!" = false ∧
    is_mostly_special_chars "a!!!!!!!" = true ∧
    is_mostly_special_chars "abc!!!!!!!" = false := by
  refine ⟨?_, ?_, by decide,
    by rw [is_mostly_special_chars_eq]; decide,
    by rw [is_mostly_special_chars_eq]; decide⟩
  · intro h
    simp [is_mostly_special_chars, h]
  · intro h
    simp only [is_mostly_special_chars]
    rw [if_neg (by omega)]
    exact decide_eq_true_iff

/-- C7 witness: the exemption at length 2 and the rejection of a
length-4 text with alphanumeric fraction 1/4, both obtained from the
general theorem. -/
theorem c7_witness :
    is_mostly_special_chars "ab" = false ∧ is_mostly_special_chars "a!!!!!!!" = true :=
  ⟨(c7_special_char_ratio "ab").1 (by decide),
   (c7_special_char_ratio "a!!!!!!!").2.2.2.1⟩

/-! ### Claim C8 -/

/-- C8: `_parse_font_info` is a pure total classification with
`is_bold` true exactly when bit value 16 (bit index 4) is set in the
flags or the lowercased font name contains `"bold"`, and `is_italic`
true exactly when bit value 2 (bit index 1) is set or the lowercased
font name contains `"italic"`; flags 18 yields both, and font name
`"Arial-BoldItalic"` with flags 0 yields both. -/
theorem c8_style_classifier (f : String) (g : Int) :
    ((parse_font_info f g).is_bold = true ↔
      (g.testBit 4 = true ∨ "bold".data <:+: (pyLower f).data)) ∧
    ((parse_font_info f g).is_italic = true ↔
      (g.testBit 1 = true ∨ "italic".data <:+: (pyLower f).data)) ∧
    (parse_font_info f g).font_name = f ∧
    (parse_font_info f g).flags = g ∧
    (parse_font_info "" 18).is_bold = true ∧
    (parse_font_info "" 18).is_italic = true ∧
    (parse_font_info "Arial-BoldItalic" 0).is_bold = true ∧
    (parse_font_info "Arial-BoldItalic" 0).is_italic = true := by
  have h16 : (16 : Int) = ((2 ^ 4 : Nat) : Int) := by norm_num
  have h2 : (2 : Int) = ((2 ^ 1 : Nat) : Int) := by norm_num
  refine ⟨?_, ?_, rfl, rfl, by decide, by decide, by decide, by decide⟩
  · simp only [parse_font_info, Bool.or_eq_true, decide_eq_true_eq, containsSub_iff]
    rw [h16, int_land_two_pow_ne_zero]
  · simp only [parse_font_info, Bool.or_eq_true, decide_eq_true_eq, containsSub_iff]
    rw [h2, int_land_two_pow_ne_zero]

/-! ### Claim C2 -/

/-- C2, counterexample: the claim says every nonzero integer decodes to
`"#"` plus exactly six hexadecimal digits of its low 24 bits, but
Python's `f"{c:06x}"` pads without truncating, so `2 ^ 24` decodes to
the seven-digit `"#1000000"` instead of `"#000000"`. -/
theorem c2_counterexample :
    parse_color 16777216 = "#1000000" ∧
    (parse_color 16777216).length = 8 ∧
    parse_color 16777216 ≠ hexLow24 16777216 := by
  refine ⟨by decide, by decide, by decide⟩

/-- C2, amended: `decode(0) = "black"`, decoding is total, and for every
nonzero integer `c` with `0 < c < 2 ^ 24` the result is `"#"` followed
by exactly six lowercase hexadecimal digits encoding `c` itself. -/
theorem c2_color_decoding (c : Int) (h0 : 0 < c) (h24 : c < 2 ^ 24) :
    parse_color 0 = "black" ∧
    (parse_color c).length = 7 ∧
    (parse_color c).data.head? = some '#' ∧
    (parse_color c).data.tail.all isLowerHexDigit = true ∧
    hexValue (parse_color c).data.tail = c.toNat := by
  have hc0 : c ≠ 0 := by omega
  have hneg : ¬ c < 0 := by omega
  have hdata : (parse_color c).data = '#' :: zeroPad 6 (natHexDigits c.toNat) := by
    simp only [parse_color, if_neg hc0, pyFormat06x, if_neg hneg]
    rw [String.data_append]
    rfl
  have htoNat : c.toNat < 16 ^ 6 := by
    have : c.toNat < 2 ^ 24 := by
      rw [Int.toNat_lt (by omega)]
      exact_mod_cast h24
    omega
  have hlen6 : (natHexDigits c.toNat).length ≤ 6 :=
    natHexDigits_length_le c.toNat 6 (by omega) htoNat
  refine ⟨rfl, ?_, ?_, ?_, ?_⟩
  · show (parse_color c).data.length = 7
    rw [hdata]
    simp [zeroPad_length 6 _ hlen6]
  · rw [hdata]
    rfl
  · rw [hdata, List.tail_cons]
    exact zeroPad_all_lower 6 _ (natHexDigits_all_lower c.toNat)
  · rw [hdata, List.tail_cons, hexValue_zeroPad, hexValue_natHexDigits]

/-- C2 witness: the amended decoding theorem at `0xFF00A0`. -/
theorem c2_color_decoding_witness :
    parse_color 0 = "black" ∧
    (parse_color 16711840).length = 7 ∧
    (parse_color 16711840).data.head? = some '#' ∧
    (parse_color 16711840).data.tail.all isLowerHexDigit = true ∧
    hexValue (parse_color 16711840).data.tail = (16711840 : Int).toNat :=
  c2_color_decoding 16711840 (by norm_num) (by norm_num)

/-! ### Claim C6 -/

theorem list_length_eq_four {α : Type} {l : List α} (h : l.length = 4) :
    ∃ a b c d, l = [a, b, c, d] := by
  match l with
  | [a, b, c, d] => exact ⟨a, b, c, d, rfl⟩
  | [] => simp at h
  | [_] => simp at h
  | [_, _] => simp at h
  | [_, _, _] => simp at h
  | _ :: _ :: _ :: _ :: _ :: _ =>
    exfalso
    simp only [List.length_cons] at h
    omega

/-- C6: `SpanInfo` construction succeeds exactly when `page ≥ 1`,
`size > 0` and the bbox has exactly four coordinates; on success every
field is stored unchanged (no silent coercion), and any failure is a
`ValueError` (the spec's `InvalidSpan`). -/
theorem c6_spanrecord_invariants (text : String) (bbox : List ℚ) (size : ℚ) (page : Int)
    (font : String) (bold italic : Bool) (color : String) :
    ((mkSpanInfo text bbox size page font bold italic color).isOk = true ↔
      (1 ≤ page ∧ 0 < size ∧ bbox.length = 4)) ∧
    (∀ r, mkSpanInfo text bbox size page font bold italic color = .ok r →
      r.text = text ∧ bboxList r.bbox = bbox ∧ r.size = size ∧ r.page = page ∧
      r.font = font ∧ r.is_bold = bold ∧ r.is_italic = italic ∧ r.color = color) ∧
    (∀ e, mkSpanInfo text bbox size page font bold italic color = .error e →
      ∃ msg, e = PdfErr.valueError msg) := by
  refine ⟨⟨?_, ?_⟩, ?_, ?_⟩
  · intro hk
    unfold mkSpanInfo at hk
    split_ifs at hk with hpage hsize
    · exact Bool.noConfusion hk
    · exact Bool.noConfusion hk
    · split at hk
      · refine ⟨by omega, by push_neg at hsize; exact hsize, by simp⟩
      · exact Bool.noConfusion hk
  · rintro ⟨h1, h2, h4⟩
    obtain ⟨a, b, c, d, rfl⟩ := list_length_eq_four h4
    unfold mkSpanInfo
    rw [if_neg (by omega), if_neg (not_le.mpr h2)]
    rfl
  · intro r hr
    unfold mkSpanInfo at hr
    split_ifs at hr
    split at hr
    · injection hr with hr
      subst hr
      exact ⟨rfl, rfl, rfl, rfl, rfl, rfl, rfl, rfl⟩
    · exact Except.noConfusion hr
  · intro e he
    unfold mkSpanInfo at he
    split_ifs at he
    · injection he with h
      exact ⟨_, h.symm⟩
    · injection he with h
      exact ⟨_, h.symm⟩
    · split at he
      · exact Except.noConfusion he
      · injection he with h
        exact ⟨_, h.symm⟩

/-- C6 witness: a valid construction obtained from the general theorem
at a concrete record. -/
theorem c6_witness :
    (mkSpanInfo "Hi" [0, 0, 1, 1] 12 1 "" false false "black").isOk = true :=
  ((c6_spanrecord_invariants "Hi" [0, 0, 1, 1] 12 1 "" false false "black").1).mpr
    ⟨by decide, by decide, by decide⟩

/-! ### Claim C3 -/

/-- C3, counterexample: the claim requires the kept records to have
trimmed text length at least 2, but the filter measures the stored,
untrimmed text: the two-space record passes every test and is kept
although its trimmed length is 0. -/
theorem c3_counterexample :
    filter_spans 6 72 [c3rec] = [c3rec] ∧ (pyStrip c3rec.text).length < 2 :=
  ⟨by decide, by decide⟩

/-- C3, amended: the filter is a pure, order-preserving subsequence
keeping exactly the records that pass the four tests — size inside the
closed interval (5.9 rejected and 6.0 accepted under the defaults),
stored (untrimmed) text length at least 2, not mostly special
characters, and the sane-bbox test with `x2 > x1`, `y2 > y1` and all
coordinates within `[0, 10000]`. -/
theorem c3_filter_characterization (minf maxf : ℚ) (spans : List SpanInfo) :
    (filter_spans minf maxf spans).Sublist spans ∧
    filter_spans minf maxf spans = spans.filter (fun r =>
      decide (minf ≤ r.size ∧ r.size ≤ maxf ∧ 2 ≤ r.text.length ∧
        is_mostly_special_chars r.text = false ∧ specValidBbox r.bbox)) ∧
    rec59.size = 59 / 10 ∧ rec60.size = 6 ∧
    filter_spans 6 72 [rec59] = [] ∧
    filter_spans 6 72 [rec60] = [rec60] := by
  refine ⟨List.filter_sublist spans, ?_, rfl, rfl, ?_, by decide⟩
  · apply List.filter_congr
    intro r _
    apply Bool.coe_iff_coe.mp
    rw [keepSpan_iff, decide_eq_true_eq]
  · have h59 : keepSpan 6 72 rec59 = false := by
      apply Bool.eq_false_iff.mpr
      intro hk
      rcases (keepSpan_iff 6 72 rec59).mp hk with ⟨h1, -, -, -, -⟩
      norm_num [rec59] at h1
    simp [filter_spans, h59]

/-! ### Claim C10 -/

/-- C10: with `min_font_size > max_font_size` (accepted unvalidated by
the constructor and by `extract_text_spans_enhanced`), the size-range
test is unsatisfiable, so the filter rejects every record and the
pipeline returns an empty sequence for every document. -/
theorem c10_inverted_range (minf maxf : ℚ) (h : maxf < minf) (spans : List SpanInfo)
    (pdf_path : String) (ps : List PageData) :
    filter_spans minf maxf spans = [] ∧
    extract_text_spans_enhanced pdf_path minf maxf (.pages ps) =
      .ok ([], (pagesWalk 1 ps).2) := by
  have hempty : ∀ s : List SpanInfo, filter_spans minf maxf s = [] := by
    intro s
    rw [filter_spans, List.filter_eq_nil_iff]
    intro a _ hk
    rcases (keepSpan_iff minf maxf a).mp hk with ⟨h1, h2, -, -, -⟩
    exact absurd (le_trans h1 h2) (not_le.mpr h)
  refine ⟨hempty spans, ?_⟩
  simp only [extract_text_spans_enhanced, extract_text_spans, hempty]

/-- C10 witness: the inverted range 10 > 5 on a concrete record and a
concrete one-page document. -/
theorem c10_witness :
    filter_spans 10 5 [w10span] = [] ∧
    extract_text_spans_enhanced "doc.pdf" 10 5 (.pages [w10page]) =
      .ok ([], (pagesWalk 1 [w10page]).2) :=
  c10_inverted_range 10 5 (by decide) [w10span] "doc.pdf" [w10page]

/-! ### Claim C5 -/

/-- C5: `extract_text_spans` fails with `FileNotFoundError` (the spec's
`NotFound`) when the path does not resolve to a readable file, fails
with a `RuntimeError` wrapping the underlying cause (the spec's
`CorruptDocument`) when the document cannot be opened at all, and never
fails on any page list: run-level and page-level failures are always
recovered locally. -/
theorem c5_failure_modes (min_font_size max_font_size : ℚ) (pdf_path cause : String)
    (ps : List PageData) :
    extract_text_spans min_font_size max_font_size pdf_path .missing =
      .error (.fileNotFound ("PDF file not found: " ++ pdf_path)) ∧
    extract_text_spans min_font_size max_font_size pdf_path (.corrupt cause) =
      .error (.runtimeError ("Failed to extract text from " ++ pdf_path ++ ": " ++ cause)) ∧
    (extract_text_spans min_font_size max_font_size pdf_path (.pages ps)).isOk = true :=
  ⟨rfl, rfl, rfl⟩

/-! ### Claim C1 -/

/-- C1, counterexample: on a page with runs Alpha, Beta, Gamma in one
line, Beta fails `SpanInfo` validation (`InvalidSpan`) and Gamma alone
would build a record, yet the page yields only Alpha's record — the
sibling run after the failure is lost, because the only handler sits at
page level in `_extract_page_spans`. -/
theorem c1_counterexample :
    runStep 1 c1run2 = .error (.valueError "Font size must be positive") ∧
    runStep 1 c1run3 =
      .ok (some { text := "Gamma", bbox := (0, 24, 50, 34), size := 12, page := 1,
                  font := "Helvetica", is_bold := false, is_italic := false,
                  color := "black" }) ∧
    (extract_page_spans c1page 1).1.map SpanInfo.text = ["Alpha"] :=
  ⟨by decide, by decide, by decide⟩

/-- C1, amended: an `InvalidSpan` failure while building one run's
record aborts the remainder of that page's walk — the records built
before the failure (earlier blocks, earlier lines, earlier runs of the
same line) are kept, every later run of the page is skipped, and the
failure becomes the page's warning. -/
theorem c1_invalid_span_aborts_page (page_num : Nat) (bpre : List RawBlock)
    (lpre : List RawLine) (rpre : List RawRun) (r : RawRun) (rpost : List RawRun)
    (lpost : List RawLine) (bpost : List RawBlock) (msg : String)
    (hb : (blocksWalk page_num bpre).2 = none)
    (hl : (linesWalk page_num lpre).2 = none)
    (hr : (runsWalk page_num rpre).2 = none)
    (he : runStep page_num r = .error (.valueError msg)) :
    extract_page_spans
        (.ok (bpre ++
          ({ lines := some (lpre ++ ({ spans := rpre ++ r :: rpost } : RawLine) :: lpost) } :
            RawBlock) :: bpost))
        page_num =
      ((blocksWalk page_num bpre).1 ++
        ((linesWalk page_num lpre).1 ++ (runsWalk page_num rpre).1),
       some (.valueError msg)) := by
  have hruns : runsWalk page_num (rpre ++ r :: rpost) =
      ((runsWalk page_num rpre).1, some (.valueError msg)) := by
    rw [runsWalk_append_ok page_num rpre (r :: rpost) hr]
    simp [runsWalk, he]
  have hlines : linesWalk page_num
      (lpre ++ ({ spans := rpre ++ r :: rpost } : RawLine) :: lpost) =
      ((linesWalk page_num lpre).1 ++ (runsWalk page_num rpre).1, some (.valueError msg)) := by
    rw [linesWalk_append_ok page_num lpre _ hl]
    simp [linesWalk, hruns]
  show blocksWalk page_num _ = _
  rw [blocksWalk_append_ok page_num bpre _ hb]
  simp [blocksWalk, hlines]

/-- C1 witness: the amended theorem at the concrete Alpha/Beta/Gamma
page. -/
theorem c1_witness :
    extract_page_spans
        (.ok [({ lines := some [({ spans := [c1run1, c1run2, c1run3] } : RawLine)] } :
          RawBlock)]) 1 =
      ((blocksWalk 1 []).1 ++ ((linesWalk 1 []).1 ++ (runsWalk 1 [c1run1]).1),
       some (.valueError "Font size must be positive")) :=
  c1_invalid_span_aborts_page 1 [] [] [c1run1] c1run2 [c1run3] [] []
    "Font size must be positive" rfl rfl (by decide) (by decide)

/-! ### Claim C4 -/

/-- C4: a page whose structural walk throws partway contributes exactly
the records built before the failure, its exception is recorded as a
non-fatal warning under its page number, extraction continues with the
remaining pages, and the whole call still succeeds (no
`CorruptDocument`). -/
theorem c4_page_failure_isolated (minf maxf : ℚ) (pdf_path : String)
    (pre post : List PageData) (p : PageData) (e : PdfErr)
    (h : (extract_page_spans p (pre.length + 1)).2 = some e) :
    extract_text_spans minf maxf pdf_path (.pages (pre ++ p :: post)) =
      .ok (filter_spans minf maxf
            ((pagesWalk 1 pre).1 ++
              ((extract_page_spans p (pre.length + 1)).1 ++
                (pagesWalk (pre.length + 2) post).1)),
          (pagesWalk 1 pre).2 ++
            (pre.length + 1, e) :: (pagesWalk (pre.length + 2) post).2) := by
  have harith : 1 + pre.length = pre.length + 1 := by omega
  have hw := pagesWalk_append 1 pre (p :: post)
  rw [harith] at hw
  have hcons : pagesWalk (pre.length + 1) (p :: post) =
      ((extract_page_spans p (pre.length + 1)).1 ++ (pagesWalk (pre.length + 2) post).1,
       (pre.length + 1, e) :: (pagesWalk (pre.length + 2) post).2) := by
    simp only [pagesWalk, h]
  simp only [extract_text_spans, hw, hcons]

/-- C4 witness: a three-page document whose second page fails partway
(one good run, then a malformed run); pages 1 and 3 contribute fully,
page 2 contributes the record built before the failure, and the page-2
warning is recorded. -/
theorem c4_witness :
    extract_text_spans 6 72 "doc.pdf" (.pages [w4page1, w4page2, w4page3]) =
      .ok (filter_spans 6 72
            ((pagesWalk 1 [w4page1]).1 ++
              ((extract_page_spans w4page2 ([w4page1].length + 1)).1 ++
                (pagesWalk ([w4page1].length + 2) [w4page3]).1)),
          (pagesWalk 1 [w4page1]).2 ++
            ([w4page1].length + 1, PdfErr.pageError) ::
              (pagesWalk ([w4page1].length + 2) [w4page3]).2) :=
  c4_page_failure_isolated 6 72 "doc.pdf" [w4page1] [w4page3] w4page2 .pageError (by decide)
